import Mathlib

/-!
# Verification of the `subfilter` response-rewriting middleware

Shallow embedding of `src/subfilter.go` (package `subfilter`): a Traefik
middleware plugin that buffers an HTTP response body, applies an ordered
chain of regex substitutions, and adjusts a small set of headers.

Bodies are `List Char` (Go `[]byte`, ASCII-transparent).  External Go
libraries (`regexp`, `compress/gzip`, `net/http`'s response writer) are
modelled by small executable Lean functions that are faithful on the
behaviours the middleware relies on; each model is documented at its
definition.
-/

namespace Subfilter

/-! ## Model of the Go `regexp` library (RE2 subset)

The middleware stores compiled regexes (`regexp.Compile`) and applies
`Regexp.ReplaceAll` (global, leftmost, non-overlapping, empty matches
advance by one character).  We model a subset of the syntax: literal
characters, `.`, escaped metacharacters, grouping `(..)`, alternation
`|`, and the postfix operators `*`, `+`, `?` applied to an atom.  A
postfix operator with no preceding atom (e.g. the pattern `"*"`) fails
to compile, as in Go.  Replacement is modelled as a literal byte string
(the `$group` expansion of Go's `ReplaceAll` is not modelled; no claim
exercises back-references). -/

/-- Abstract syntax of compiled regexes (model of `*regexp.Regexp`). -/
inductive Regex where
  | emptyS : Regex
  | char (c : Char) : Regex
  | dot : Regex
  | concat (a b : Regex) : Regex
  | alt (a b : Regex) : Regex
  | star (a : Regex) : Regex
deriving Repr, DecidableEq

/-- Priority-ordered list of remainders after matching `r` at the head of
`s`, leftmost-first (Perl-style) semantics: alternation prefers its left
branch, `star` is greedy.  `star` only iterates on strictly consuming
steps, so the fuel `(s.length + 1) * (sizeOf r + 1) + 1` always
suffices. -/
def matchRems (fuel : Nat) (r : Regex) (s : List Char) : List (List Char) :=
  match fuel with
  | 0 => []
  | fuel + 1 =>
    match r with
    | .emptyS => [s]
    | .char c =>
      match s with
      | [] => []
      | x :: xs => if x = c then [xs] else []
    | .dot =>
      match s with
      | [] => []
      | _ :: xs => [xs]
    | .alt a b => matchRems fuel a s ++ matchRems fuel b s
    | .concat a b => (matchRems fuel a s).flatMap (matchRems fuel b)
    | .star a =>
      ((matchRems fuel a s).filter (fun t => t.length < s.length)).flatMap
        (matchRems fuel (.star a)) ++ [s]

/-- Structural size of a regex, used to bound matcher fuel. -/
def Regex.size : Regex → Nat
  | .emptyS => 1
  | .char _ => 1
  | .dot => 1
  | .concat a b => a.size + b.size + 1
  | .alt a b => a.size + b.size + 1
  | .star a => a.size + 1

/-- Fuel that is always sufficient for `matchRems`. -/
def matchFuel (r : Regex) (s : List Char) : Nat :=
  (s.length + 1) * (r.size + 1) + 1

/-- Remainder of the leftmost-first match of `r` at the start of `s`
(`none` when `r` does not match at the start). -/
def firstMatchRem (r : Regex) (s : List Char) : Option (List Char) :=
  (matchRems (matchFuel r s) r s).head?

/-- One scanning pass of `Regexp.ReplaceAll`: at each position try the
leftmost-first match; a nonempty match is replaced and the scan resumes
after it (non-overlapping); an empty match inserts the replacement and
the scan advances one character; a position with no match copies one
character.  `fuel` bounds the number of positions visited. -/
def replaceAllGo (fuel : Nat) (r : Regex) (repl : List Char) (s : List Char) :
    List Char :=
  match fuel with
  | 0 => s
  | fuel + 1 =>
    match firstMatchRem r s with
    | some rem =>
      if rem.length < s.length then
        repl ++ replaceAllGo fuel r repl rem
      else
        match s with
        | [] => repl
        | c :: cs => repl ++ c :: replaceAllGo fuel r repl cs
    | none =>
      match s with
      | [] => []
      | c :: cs => c :: replaceAllGo fuel r repl cs

/-- Model of Go `(*Regexp).ReplaceAll re repl` on body `s`. -/
def replaceAll (r : Regex) (repl : List Char) (s : List Char) : List Char :=
  replaceAllGo (s.length + 1) r repl s

/-! ### Parser (model of `regexp.Compile`) -/

/-- Metacharacters that cannot stand as plain literal atoms. -/
def isMeta (c : Char) : Bool :=
  c = '*' || c = '+' || c = '?' || c = '(' || c = ')' || c = '|' ||
  c = '.' || c = '\\' || c = '[' || c = ']' || c = '^' || c = '$' ||
  c = '{' || c = '}'

mutual

/-- Parse an alternation `concat ('|' concat)*`. -/
def parseAlt (fuel : Nat) (s : List Char) : Option (Regex × List Char) :=
  match fuel with
  | 0 => none
  | fuel + 1 =>
    match parseConcat fuel s with
    | none => none
    | some (r, rest) =>
      match rest with
      | '|' :: rest2 =>
        match parseAlt fuel rest2 with
        | none => none
        | some (r2, rest3) => some (.alt r r2, rest3)
      | _ => some (r, rest)

/-- Parse a (possibly empty) concatenation of repeated atoms. -/
def parseConcat (fuel : Nat) (s : List Char) : Option (Regex × List Char) :=
  match fuel with
  | 0 => none
  | fuel + 1 =>
    match parseRepeat fuel s with
    | none => some (.emptyS, s)
    | some (r, rest) =>
      match parseConcat fuel rest with
      | none => some (r, rest)
      | some (r2, rest2) => some (.concat r r2, rest2)

/-- Parse an atom with an optional single postfix `*`, `+` or `?`. -/
def parseRepeat (fuel : Nat) (s : List Char) : Option (Regex × List Char) :=
  match fuel with
  | 0 => none
  | fuel + 1 =>
    match parseAtom fuel s with
    | none => none
    | some (r, rest) =>
      match rest with
      | '*' :: rest2 => some (.star r, rest2)
      | '+' :: rest2 => some (.concat r (.star r), rest2)
      | '?' :: rest2 => some (.alt r .emptyS, rest2)
      | _ => some (r, rest)

/-- Parse one atom: a group, `.`, an escaped metacharacter, or a plain
literal character.  A bare postfix operator is not an atom, so patterns
such as `"*"` fail here. -/
def parseAtom (fuel : Nat) (s : List Char) : Option (Regex × List Char) :=
  match fuel with
  | 0 => none
  | fuel + 1 =>
    match s with
    | [] => none
    | '(' :: rest =>
      match parseAlt fuel rest with
      | none => none
      | some (r, rest2) =>
        match rest2 with
        | ')' :: rest3 => some (r, rest3)
        | _ => none
    | '.' :: rest => some (.dot, rest)
    | '\\' :: c :: rest => some (.char c, rest)
    | '\\' :: [] => none
    | c :: rest => if isMeta c then none else some (.char c, rest)

end

/-- Model of `regexp.Compile`: parse the whole pattern or fail.  `none`
models a non-nil `error` from Go. -/
def regexpCompile (pattern : String) : Option Regex :=
  let cs := pattern.toList
  match parseAlt (4 * cs.length + 8) cs with
  | some (r, []) => some r
  | _ => none

/-! ## Model of `compress/gzip`

The middleware relies on three behaviours of the library: a reader on a
stream that does not start with the gzip magic bytes fails
(`gzip.NewReader` checks the header, and truncated or corrupt streams
fail on read), a writer followed by a reader round-trips the plaintext,
and compressed output differs from its plaintext.  We model a
compressed stream as the two gzip magic bytes (`0x1f 0x8b`) followed by
the plaintext; DEFLATE itself is out of scope.  `gzipDecompress b =
none` models every decompression failure mode (`NewReader` error,
`ReadAll` error, `Close` error). -/

/-- The two gzip magic bytes `0x1f 0x8b`. -/
def gzipMagic : List Char := [Char.ofNat 31, Char.ofNat 139]

/-- Model of compressing with `gzip.NewWriter` at the default level. -/
def gzipCompress (b : List Char) : List Char := gzipMagic ++ b

/-- Model of `gzip.NewReader` + `ReadAll` + `Close` on a captured body. -/
def gzipDecompress (b : List Char) : Option (List Char) :=
  match b with
  | c1 :: c2 :: rest =>
    if c1 = Char.ofNat 31 && c2 = Char.ofNat 139 then some rest else none
  | _ => none

/-! ## Data model of the plugin (from `src/subfilter.go`) -/

/-- `const contentEncodingGzip = "gzip"` (subfilter.go line 19). -/
def contentEncodingGzip : String := "gzip"

/-- `type Filter struct` (lines 22-25): one configured filter spec. -/
structure Filter where
  Regex : String
  Replacement : String
deriving Repr, DecidableEq

/-- `type Config struct` (lines 28-31): the plugin configuration. -/
structure Config where
  LastModified : Bool
  Filters : List Filter
deriving Repr, DecidableEq

/-- `func CreateConfig` (lines 34-36). -/
def CreateConfig : Config := ⟨false, []⟩

/-- `type filter struct` (lines 38-41): a compiled filter. -/
structure filter where
  regex : Regex
  replacement : List Char
deriving Repr, DecidableEq

/-- `type subfilter struct` (lines 43-48), without the opaque `next`
handler (the downstream handler is passed to `ServeHTTP` as a trace). -/
structure subfilter where
  name : String
  filters : List filter
  lastModified : Bool
deriving Repr, DecidableEq

/-- `func New` (lines 51-82): compile each configured filter, dropping
(with a logged warning) those whose pattern fails to compile; fail with
an error when no filter compiled.  `Except.error` models the non-nil
`error` return (in which case no handler is returned). -/
def New (config : Config) (name : String) : Except String subfilter :=
  let filters := config.Filters.foldl
    (fun acc f =>
      match regexpCompile f.Regex with
      | none => acc
      | some r => acc ++ [⟨r, f.Replacement.toList⟩])
    []
  if filters.length = 0 then
    Except.error "no valid filters. disabling"
  else
    Except.ok ⟨name, filters, config.LastModified⟩

/-! ## Model of the response path

The three headers the middleware reads or deletes are modelled
explicitly; `none` means the header is absent (`Header().Get` then
yields `""`).  The real sink (`net/http`'s response writer) commits its
status and a snapshot of the header map at its first `WriteHeader` or
`Write` call (a later `WriteHeader` is a logged no-op, and later header
map mutations do not affect the committed snapshot) and appends written
bytes to the wire. -/

/-- The response header map (the fields the middleware touches). -/
structure Headers where
  contentEncoding : Option String
  contentLength : Option String
  lastModified : Option String
deriving Repr, DecidableEq

/-- The empty header map of a fresh response. -/
def Headers.empty : Headers := ⟨none, none, none⟩

/-- State of the real (wrapped) sink: committed status, the header
snapshot taken at commit time, and the body bytes on the wire. -/
structure SinkState where
  committedStatus : Option Nat
  committedHeaders : Option Headers
  body : List Char
deriving Repr, DecidableEq

/-- A fresh real sink: nothing committed, nothing written. -/
def SinkState.init : SinkState := ⟨none, none, []⟩

/-- Real sink `WriteHeader` (net/http model): commit status and a
snapshot of the current header map, unless already committed. -/
def SinkState.writeHeader (sk : SinkState) (status : Nat) (h : Headers) :
    SinkState :=
  match sk.committedStatus with
  | some _ => sk
  | none => { sk with committedStatus := some status, committedHeaders := some h }

/-- Real sink `Write` (net/http model): an implicit 200 commit when none
has happened, then the bytes go on the wire. -/
def SinkState.write (sk : SinkState) (p : List Char) (h : Headers) : SinkState :=
  let sk1 := sk.writeHeader 200 h
  { sk1 with body := sk1.body ++ p }

/-- Per-request state of the capturing `responseWriter` (lines 138-144)
together with the shared header map and the wrapped real sink. -/
structure RWState where
  headers : Headers
  lastModified : Bool
  wroteHeader : Bool
  encoding : String
  buffer : List Char
  sink : SinkState
deriving Repr, DecidableEq

/-- The state at the start of `ServeHTTP` (lines 85-88). -/
def RWState.init (lastModified : Bool) : RWState :=
  ⟨Headers.empty, lastModified, false, "", [], SinkState.init⟩

/-- `func (r *responseWriter) WriteHeader` (lines 146-154): delete
`Last-Modified` unless configured to keep it, mark the header written,
delete `Content-Length`, and forward the status to the wrapped sink. -/
def WriteHeaderM (s : RWState) (statusCode : Nat) : RWState :=
  let h1 := if s.lastModified then s.headers
            else { s.headers with lastModified := none }
  let h2 := { h1 with contentLength := none }
  { s with headers := h2, wroteHeader := true,
           sink := s.sink.writeHeader statusCode h2 }

/-- `func (r *responseWriter) Write` (lines 156-162): an implicit
`WriteHeader(200)` when none happened yet, then append to the capture
buffer; returns `(len p, nil)` like `bytes.Buffer.Write`. -/
def WriteM (s : RWState) (p : List Char) : RWState × (Nat × Option String) :=
  let s1 := if s.wroteHeader then s else WriteHeaderM s 200
  ({ s1 with buffer := s1.buffer ++ p }, (p.length, none))

/-- One step of the downstream handler against the capturing writer:
set one of the modelled headers, or call `WriteHeader` / `Write`. -/
inductive HandlerOp where
  | setContentEncoding (v : String)
  | setContentLength (v : String)
  | setLastModified (v : String)
  | writeHeader (status : Nat)
  | write (p : List Char)
deriving Repr, DecidableEq

/-- Execute one handler step. -/
def runOp (s : RWState) : HandlerOp → RWState
  | .setContentEncoding v =>
    { s with headers := { s.headers with contentEncoding := some v } }
  | .setContentLength v =>
    { s with headers := { s.headers with contentLength := some v } }
  | .setLastModified v =>
    { s with headers := { s.headers with lastModified := some v } }
  | .writeHeader status => WriteHeaderM s status
  | .write p => (WriteM s p).1

/-- `s.next.ServeHTTP(rw, r)` (line 90): run the downstream handler's
trace of operations against the capturing writer. -/
def runHandler (ops : List HandlerOp) (s : RWState) : RWState :=
  ops.foldl runOp s

/-- The substitution pipeline (lines 129-131): the `for` loop applying
each compiled filter's global substitution in chain order, each output
becoming the next filter's input — a left fold over the chain. -/
def substituteAll (fs : List filter) (b : List Char) : List Char :=
  fs.foldl (fun acc f => replaceAll f.regex f.replacement acc) b

/-- The shared tail of `ServeHTTP` (lines 129-135): apply the
substitution pipeline to the decoded body, then write the result to the
real sink. -/
def applyAndWrite (sf : subfilter) (s : RWState) (b : List Char) : RWState :=
  { s with sink := s.sink.write (substituteAll sf.filters b) s.headers }

/-- `func (s *subfilter) ServeHTTP` (lines 84-136): run the downstream
handler against a fresh capturing writer, then dispatch on the declared
`Content-Encoding`: empty/`identity` bodies are used as captured, a
gzip body is decompressed (failure aborts the response with nothing
written), any other encoding is copied through unchanged; on the
non-passthrough paths the filters are applied and the result written. -/
def ServeHTTP (sf : subfilter) (handler : List HandlerOp) : RWState :=
  let s := runHandler handler (RWState.init sf.lastModified)
  let ce := s.headers.contentEncoding.getD ""
  if ce = "" ∨ ce = "identity" then
    applyAndWrite sf s s.buffer
  else if ce = contentEncodingGzip then
    match gzipDecompress s.buffer with
    | none => s
    | some b => applyAndWrite sf { s with encoding := contentEncodingGzip } b
  else
    { s with sink := s.sink.write s.buffer s.headers }

/-! ## Model of the hijack path -/

/-- The real sink's concrete type name together with its optional
hijack capability (model of the `http.Hijacker` type assertion on lines
164-171): `none` models a sink whose concrete type does not implement
`http.Hijacker`; `some res` models one that does, `res` being the
`(conn, readwriter, err)` triple its own `Hijack` returns, connections
and read-writers being opaque handles. -/
structure RealSink where
  typeName : String
  hijacker : Option (Option Nat × Option Nat × Option String)
deriving Repr, DecidableEq

/-- `func (r *responseWriter) Hijack` (lines 164-171): a sink without
the capability yields a `"%T is not a http.Hijacker"` error and no
connection; otherwise the call is forwarded to the real sink. -/
def HijackM (w : RealSink) : Option Nat × Option Nat × Option String :=
  match w.hijacker with
  | none => (none, none, some (w.typeName ++ " is not a http.Hijacker"))
  | some res => res

/-! ## Spec-side definitions and shared concrete instances -/

/-- Spec-side substitution pipeline, following the spec's words: apply
`p1 → r1` to `B`, then `p2 → r2` to that result, and so on in
declaration order.  Compared against `substituteAll` (from the source)
in the chaining claim. -/
def substituteSeqSpec : List filter → List Char → List Char
  | [], b => b
  | f :: fs, b => substituteSeqSpec fs (replaceAll f.regex f.replacement b)

/-- The single-filter configuration `foo → bar` of the repository's
tests, with `lastModified = false`. -/
def fooBarConfig : Config := ⟨false, [⟨"foo", "bar"⟩]⟩

/-- The middleware built from `fooBarConfig` (construction succeeds, so
the default is never used). -/
def fooBarSub : subfilter :=
  (New fooBarConfig "subfilter").toOption.getD ⟨"subfilter", [], false⟩

/-- The same middleware with `lastModified = true`. -/
def fooBarSubLM : subfilter :=
  (New ⟨true, [⟨"foo", "bar"⟩]⟩ "subfilter").toOption.getD ⟨"subfilter", [], true⟩

/-! ## Invariants of the capture phase -/

/-- Invariant of the capture phase: the configured `lastModified` flag
is constant, no body byte has reached the real sink, an untouched
header path means an untouched sink, a written header means a committed
sink, and every committed header snapshot has `Content-Length` deleted
and, when `lastModified` is off, `Last-Modified` deleted. -/
def Inv (lm : Bool) (s : RWState) : Prop :=
  s.lastModified = lm ∧
  s.sink.body = [] ∧
  (s.wroteHeader = false → s.sink = SinkState.init) ∧
  (s.wroteHeader = true → s.sink.committedStatus ≠ none) ∧
  ∀ h, s.sink.committedHeaders = some h →
    h.contentLength = none ∧ (lm = false → h.lastModified = none)

lemma inv_init (lm : Bool) : Inv lm (RWState.init lm) := by
  refine ⟨rfl, rfl, fun _ => rfl, fun hfalse => ?_, fun h hh => ?_⟩ <;>
    simp [RWState.init, SinkState.init] at *

lemma inv_writeHeaderM {lm : Bool} {s : RWState} (hs : Inv lm s)
    (status : Nat) : Inv lm (WriteHeaderM s status) := by
  obtain ⟨hlm, hbody, _huntouched, _hcommit, hsnap⟩ := hs
  unfold WriteHeaderM SinkState.writeHeader
  refine ⟨hlm, ?_, ?_, ?_, ?_⟩
  · cases hcs : s.sink.committedStatus <;> simp [hcs, hbody]
  · intro hfalse; simp at hfalse
  · intro _
    cases hcs : s.sink.committedStatus <;> simp [hcs]
  · intro h hh
    cases hcs : s.sink.committedStatus with
    | some k =>
      simp only [hcs] at hh
      exact hsnap h hh
    | none =>
      simp only [hcs, Option.some.injEq] at hh
      subst hh
      constructor
      · rfl
      · intro hlmf
        rw [hlm] at *
        simp [hlmf]

lemma inv_runOp {lm : Bool} {s : RWState} (hs : Inv lm s) (op : HandlerOp) :
    Inv lm (runOp s op) := by
  obtain ⟨hlm, hbody, huntouched, hcommit, hsnap⟩ := hs
  cases op with
  | setContentEncoding v => exact ⟨hlm, hbody, huntouched, hcommit, hsnap⟩
  | setContentLength v => exact ⟨hlm, hbody, huntouched, hcommit, hsnap⟩
  | setLastModified v => exact ⟨hlm, hbody, huntouched, hcommit, hsnap⟩
  | writeHeader status =>
    exact inv_writeHeaderM ⟨hlm, hbody, huntouched, hcommit, hsnap⟩ status
  | write p =>
    have hinv : Inv lm s := ⟨hlm, hbody, huntouched, hcommit, hsnap⟩
    have key : ∀ t : RWState, Inv lm t → Inv lm { t with buffer := t.buffer ++ p } :=
      fun t ht => ⟨ht.1, ht.2.1, ht.2.2.1, ht.2.2.2.1, ht.2.2.2.2⟩
    show Inv lm (WriteM s p).1
    unfold WriteM
    by_cases hw : s.wroteHeader = true
    · rw [if_pos hw]
      exact key s hinv
    · rw [if_neg hw]
      exact key _ (inv_writeHeaderM hinv 200)

lemma inv_runHandler {lm : Bool} (ops : List HandlerOp) {s : RWState}
    (hs : Inv lm s) : Inv lm (runHandler ops s) := by
  induction ops generalizing s with
  | nil => exact hs
  | cons op ops ih => exact ih (inv_runOp hs op)

/-- The state captured from the downstream handler satisfies `Inv`. -/
lemma inv_capture (sf : subfilter) (ops : List HandlerOp) :
    Inv sf.lastModified (runHandler ops (RWState.init sf.lastModified)) :=
  inv_runHandler ops (inv_init sf.lastModified)

/-- The final sink of `ServeHTTP` is the captured sink either untouched
or extended by exactly one write against the captured header map. -/
lemma serveHTTP_sink_cases (sf : subfilter) (ops : List HandlerOp) :
    (ServeHTTP sf ops).sink = (runHandler ops (RWState.init sf.lastModified)).sink ∨
    ∃ b, (ServeHTTP sf ops).sink =
      (runHandler ops (RWState.init sf.lastModified)).sink.write b
        (runHandler ops (RWState.init sf.lastModified)).headers := by
  unfold ServeHTTP
  dsimp only
  split
  · right
    exact ⟨_, rfl⟩
  · split
    · split
      · left; rfl
      · right
        exact ⟨_, rfl⟩
    · right
      exact ⟨_, rfl⟩

/-- A write against an already-committed sink changes neither the
committed status nor the committed header snapshot. -/
lemma SinkState.write_of_committed {sk : SinkState} {k : Nat}
    (hc : sk.committedStatus = some k) (p : List Char) (h : Headers) :
    (sk.write p h).committedStatus = some k ∧
    (sk.write p h).committedHeaders = sk.committedHeaders := by
  simp [SinkState.write, SinkState.writeHeader, hc]

/-- A sink write puts exactly the written bytes at the end of the wire. -/
lemma SinkState.body_write (sk : SinkState) (p : List Char) (h : Headers) :
    (sk.write p h).body = sk.body ++ p := by
  unfold SinkState.write SinkState.writeHeader
  cases hc : sk.committedStatus <;> simp [hc]

/-- On a declared encoding other than empty, `identity` and gzip,
`ServeHTTP` only copies the captured bytes to the real sink. -/
lemma serveHTTP_of_other (sf : subfilter) (ops : List HandlerOp)
    (h1 : (runHandler ops (RWState.init sf.lastModified)).headers.contentEncoding.getD "" ≠ "")
    (h2 : (runHandler ops (RWState.init sf.lastModified)).headers.contentEncoding.getD "" ≠ "identity")
    (h3 : (runHandler ops (RWState.init sf.lastModified)).headers.contentEncoding.getD "" ≠ contentEncodingGzip) :
    ServeHTTP sf ops =
      { runHandler ops (RWState.init sf.lastModified) with
        sink := (runHandler ops (RWState.init sf.lastModified)).sink.write
          (runHandler ops (RWState.init sf.lastModified)).buffer
          (runHandler ops (RWState.init sf.lastModified)).headers } := by
  unfold ServeHTTP
  dsimp only
  rw [if_neg (not_or.mpr ⟨h1, h2⟩), if_neg h3]

/-- On a declared gzip encoding whose captured body fails to decompress,
`ServeHTTP` leaves the captured state untouched. -/
lemma serveHTTP_of_gzip_fail (sf : subfilter) (ops : List HandlerOp)
    (h : (runHandler ops (RWState.init sf.lastModified)).headers.contentEncoding.getD "" = contentEncodingGzip)
    (hgz : gzipDecompress (runHandler ops (RWState.init sf.lastModified)).buffer = none) :
    ServeHTTP sf ops = runHandler ops (RWState.init sf.lastModified) := by
  unfold ServeHTTP
  dsimp only
  rw [h, hgz]
  rw [if_neg (by decide : ¬(contentEncodingGzip = "" ∨ contentEncodingGzip = "identity")),
    if_pos rfl]

/-- The accumulator form of the compile loop in `New` equals a
`filterMap` of the compile function. -/
lemma foldl_compile_eq_filterMap (specs : List Filter) (acc : List filter) :
    specs.foldl
      (fun acc f =>
        match regexpCompile f.Regex with
        | none => acc
        | some r => acc ++ [⟨r, f.Replacement.toList⟩])
      acc
    = acc ++ specs.filterMap
        (fun f => (regexpCompile f.Regex).map
          (fun r => (⟨r, f.Replacement.toList⟩ : filter))) := by
  induction specs generalizing acc with
  | nil => simp
  | cons f fs ih =>
    cases hc : regexpCompile f.Regex with
    | none =>
      simp only [List.foldl_cons, List.filterMap_cons, hc, Option.map_none']
      exact ih acc
    | some r =>
      simp only [List.foldl_cons, List.filterMap_cons, hc, Option.map_some']
      rw [ih]
      simp

/-- With `lastModified` configured on, a handler that sets the header
and then writes gets its value into the committed snapshot. -/
lemma commit_keeps_LM (sf : subfilter) (hlm : sf.lastModified = true)
    (v : String) (p : List Char) :
    (ServeHTTP sf [.setLastModified v, .write p]).sink.committedHeaders =
      some ⟨none, none, some v⟩ := by
  have hcap : runHandler [.setLastModified v, .write p] (RWState.init sf.lastModified) =
      { headers := ⟨none, none, some v⟩, lastModified := sf.lastModified,
        wroteHeader := true, encoding := "",
        buffer := p,
        sink := ⟨some 200, some ⟨none, none, some v⟩, []⟩ } := by
    simp [runHandler, runOp, WriteM, WriteHeaderM, RWState.init, Headers.empty,
      SinkState.init, SinkState.writeHeader, hlm]
  unfold ServeHTTP
  dsimp only
  rw [hcap]
  simp [applyAndWrite, SinkState.write, SinkState.writeHeader]

/-! ## The claims -/

/-- Downstream handler of the repository's gzip test: declare
`Content-Encoding: gzip` and write the compressed plaintext. -/
def gzipFooHandler : List HandlerOp :=
  [.setContentEncoding "gzip", .write (gzipCompress "foo is the new bar".toList)]

/-- C1 (code bug): on a gzip-declared body the middleware decompresses
and substitutes, but then writes the *plain* substituted bytes — the
recompression the claim (and the repository's own test) requires never
happens, so the bytes on the wire are not a valid compressed stream
while the committed `Content-Encoding` still says `gzip`. -/
theorem C1_gzip_not_reencoded :
    New fooBarConfig "subfilter" = Except.ok fooBarSub ∧
    (ServeHTTP fooBarSub gzipFooHandler).sink.body = "bar is the new bar".toList ∧
    (ServeHTTP fooBarSub gzipFooHandler).sink.body ≠
      gzipCompress "bar is the new bar".toList ∧
    gzipDecompress (ServeHTTP fooBarSub gzipFooHandler).sink.body = none ∧
    (ServeHTTP fooBarSub gzipFooHandler).sink.committedHeaders =
      some ⟨some "gzip", none, none⟩ := by
  refine ⟨rfl, by decide, by decide, by decide, by decide⟩

/-- C2 (counterexample): the claim says `writeHeader` never forwards
commitment to the real sink while the downstream handler runs; but
after a handler consisting of one body write, the real sink is already
committed with status 200. -/
theorem C2_commit_during_handler :
    (runHandler [HandlerOp.write "x".toList] (RWState.init false)).sink.committedStatus
      = some 200 ∧
    ¬ (runHandler [HandlerOp.write "x".toList] (RWState.init false)).sink.committedStatus
      = none := by
  decide

/-- C2 (amended): `writeHeader` records the status and forwards the
commitment to the real sink immediately at the time of the call (so
commitment happens during the downstream handler's execution, at its
first write); body bytes, in contrast, are never forwarded while the
handler runs. -/
theorem C2_amended_immediate_commit :
    (∀ (s : RWState) (status : Nat), s.sink.committedStatus = none →
      (WriteHeaderM s status).sink.committedStatus = some status ∧
      (WriteHeaderM s status).sink.committedHeaders ≠ none) ∧
    ∀ (lm : Bool) (ops : List HandlerOp),
      (runHandler ops (RWState.init lm)).sink.body = [] := by
  constructor
  · intro s status hc
    unfold WriteHeaderM SinkState.writeHeader
    rw [hc]
    exact ⟨rfl, by simp⟩
  · intro lm ops
    exact (inv_runHandler ops (inv_init lm)).2.1

/-- Witness for the amended C2 at concrete inputs. -/
theorem C2_amended_immediate_commit_witness :
    (WriteHeaderM (RWState.init false) 404).sink.committedStatus = some 404 ∧
    (runHandler [HandlerOp.write "x".toList] (RWState.init false)).sink.body = [] :=
  ⟨(C2_amended_immediate_commit.1 (RWState.init false) 404 (by decide)).1,
   C2_amended_immediate_commit.2 false [HandlerOp.write "x".toList]⟩

/-- C3: the substitution pipeline (the source's left fold) equals the
filter-by-filter sequential application the spec describes, and in the
repository's own two-filter example the second filter rewrites the
`bar` introduced by the first — chaining is observable. -/
theorem C3_chain_law :
    (∀ (fs : List filter) (b : List Char),
      substituteAll fs b = substituteSeqSpec fs b) ∧
    ((regexpCompile "foo").bind fun r1 => (regexpCompile "bar").map fun r2 =>
        substituteAll [⟨r1, "bar".toList⟩, ⟨r2, "foo".toList⟩]
          "foo is the new bar".toList)
      = some "foo is the new foo".toList := by
  constructor
  · intro fs
    induction fs with
    | nil => intro b; rfl
    | cons f fs ih => intro b; exact ih (replaceAll f.regex f.replacement b)
  · decide

/-- C4: when the declared `Content-Encoding` is neither empty, nor
`identity`, nor the supported gzip token, the captured bytes reach the
real sink byte-for-byte unchanged and no filter is applied. -/
theorem C4_passthrough :
    ∀ (sf : subfilter) (ops : List HandlerOp),
      (runHandler ops (RWState.init sf.lastModified)).headers.contentEncoding.getD "" ≠ "" →
      (runHandler ops (RWState.init sf.lastModified)).headers.contentEncoding.getD "" ≠ "identity" →
      (runHandler ops (RWState.init sf.lastModified)).headers.contentEncoding.getD "" ≠ contentEncodingGzip →
      (ServeHTTP sf ops).sink.body =
        (runHandler ops (RWState.init sf.lastModified)).buffer := by
  intro sf ops h1 h2 h3
  rw [serveHTTP_of_other sf ops h1 h2 h3]
  dsimp only
  rw [SinkState.body_write, (inv_capture sf ops).2.1]
  simp

/-- Witness for C4: a `br`-encoded body passes through unchanged. -/
theorem C4_passthrough_witness :
    (ServeHTTP fooBarSub
      [.setContentEncoding "br", .write "foo is the new bar".toList]).sink.body
      = "foo is the new bar".toList :=
  (C4_passthrough fooBarSub
    [.setContentEncoding "br", .write "foo is the new bar".toList]
    (by decide) (by decide) (by decide)).trans (by decide)

/-- C5 (counterexample): a handler that sets `Content-Length` and
returns without ever writing bypasses the capture's `writeHeader`, so
the final write commits headers that still contain `Content-Length` —
the claimed unconditional absence fails. -/
theorem C5_counterexample :
    (ServeHTTP fooBarSub [HandlerOp.setContentLength "5"]).sink.committedHeaders =
      some ⟨none, some "5", none⟩ := by
  decide

/-- C5 (amended): whenever header commitment goes through the capture's
`writeHeader` (the handler wrote a body byte or an explicit status),
the committed headers contain no `Content-Length`. -/
theorem C5_amended_no_content_length :
    ∀ (sf : subfilter) (ops : List HandlerOp),
      (runHandler ops (RWState.init sf.lastModified)).wroteHeader = true →
      ∀ h, (ServeHTTP sf ops).sink.committedHeaders = some h →
        h.contentLength = none := by
  intro sf ops hw h hh
  obtain ⟨hlm, hbody, hun, hcommit, hsnap⟩ := inv_capture sf ops
  obtain ⟨k, hk⟩ := Option.ne_none_iff_exists'.mp (hcommit hw)
  rcases serveHTTP_sink_cases sf ops with hc | ⟨b, hc⟩
  · rw [hc] at hh
    exact (hsnap h hh).1
  · rw [hc, (SinkState.write_of_committed hk b _).2] at hh
    exact (hsnap h hh).1

/-- Witness for the amended C5 at a concrete run. -/
theorem C5_amended_no_content_length_witness :
    (⟨none, none, none⟩ : Headers).contentLength = none :=
  C5_amended_no_content_length fooBarSub [HandlerOp.write "x".toList] (by decide)
    ⟨none, none, none⟩ (by decide)

/-- C6 (counterexample): with `lastModified = true` but a handler that
never sets the header, the committed response has no `Last-Modified`,
refuting "present iff `lastModified` is configured true". -/
theorem C6_counterexample :
    fooBarSubLM.lastModified = true ∧
    (ServeHTTP fooBarSubLM [HandlerOp.write "x".toList]).sink.committedHeaders =
      some ⟨none, none, none⟩ := by
  decide

/-- C6 (amended): when `lastModified` is false, every response committed
through the capture's `writeHeader` has no `Last-Modified`; when it is
true, a value the handler sets before its first write is preserved in
the committed snapshot. -/
theorem C6_amended_last_modified :
    (∀ (sf : subfilter) (ops : List HandlerOp), sf.lastModified = false →
      (runHandler ops (RWState.init sf.lastModified)).wroteHeader = true →
      ∀ h, (ServeHTTP sf ops).sink.committedHeaders = some h →
        h.lastModified = none) ∧
    ∀ (v : String) (p : List Char),
      (ServeHTTP fooBarSubLM [.setLastModified v, .write p]).sink.committedHeaders =
        some ⟨none, none, some v⟩ := by
  constructor
  · intro sf ops hlmf hw h hh
    obtain ⟨hlm, hbody, hun, hcommit, hsnap⟩ := inv_capture sf ops
    obtain ⟨k, hk⟩ := Option.ne_none_iff_exists'.mp (hcommit hw)
    rcases serveHTTP_sink_cases sf ops with hc | ⟨b, hc⟩
    · rw [hc] at hh
      exact (hsnap h hh).2 hlmf
    · rw [hc, (SinkState.write_of_committed hk b _).2] at hh
      exact (hsnap h hh).2 hlmf
  · intro v p
    exact commit_keeps_LM fooBarSubLM rfl v p

/-- Witness for the amended C6 at concrete runs, both flag values. -/
theorem C6_amended_last_modified_witness :
    (⟨none, none, none⟩ : Headers).lastModified = none ∧
    (ServeHTTP fooBarSubLM
      [.setLastModified "Thu, 02 Jun 2016 06:01:08 GMT", .write "x".toList]).sink.committedHeaders =
      some ⟨none, none, some "Thu, 02 Jun 2016 06:01:08 GMT"⟩ :=
  ⟨C6_amended_last_modified.1 fooBarSub [HandlerOp.write "x".toList] rfl (by decide)
      ⟨none, none, none⟩ (by decide),
   C6_amended_last_modified.2 "Thu, 02 Jun 2016 06:01:08 GMT" "x".toList⟩

/-- C7: construction keeps exactly the specs whose pattern compiles (in
order) and fails with the explicit "no valid filters" error precisely
when none compiles; in particular the single invalid pattern `*` makes
construction fail. -/
theorem C7_construction :
    ∀ (lm : Bool) (specs : List Filter) (nm : String),
      (New ⟨lm, specs⟩ nm =
        if specs.all (fun f => (regexpCompile f.Regex).isNone) then
          Except.error "no valid filters. disabling"
        else
          Except.ok ⟨nm, specs.filterMap
            (fun f => (regexpCompile f.Regex).map
              (fun r => (⟨r, f.Replacement.toList⟩ : filter))), lm⟩) ∧
      New ⟨lm, [⟨"*", "bar"⟩]⟩ nm = Except.error "no valid filters. disabling" := by
  intro lm specs nm
  constructor
  · unfold New
    dsimp only
    rw [foldl_compile_eq_filterMap specs [], List.nil_append]
    by_cases hall : (specs.all fun f => (regexpCompile f.Regex).isNone) = true
    · have hnil : specs.filterMap
          (fun f => (regexpCompile f.Regex).map
            (fun r => (⟨r, f.Replacement.toList⟩ : filter))) = [] := by
        refine List.filterMap_eq_nil_iff.mpr fun a ha => ?_
        rw [Option.isNone_iff_eq_none.mp (List.all_eq_true.mp hall a ha)]
        rfl
      rw [hnil]
      simp [hall]
    · have hne : specs.filterMap
          (fun f => (regexpCompile f.Regex).map
            (fun r => (⟨r, f.Replacement.toList⟩ : filter))) ≠ [] := by
        intro hnil
        apply hall
        refine List.all_eq_true.mpr fun a ha => ?_
        have hma := List.filterMap_eq_nil_iff.mp hnil a ha
        rw [Option.isNone_iff_eq_none]
        cases hca : regexpCompile a.Regex with
        | none => rfl
        | some r => rw [hca] at hma; simp at hma
      rw [if_neg (fun h0 => hne (List.length_eq_zero.mp h0)), if_neg hall]
  · rfl

/-- C8: a gzip-declared body that fails to decompress aborts the
response: not a single body byte reaches the real sink. -/
theorem C8_gzip_failure_aborts :
    ∀ (sf : subfilter) (ops : List HandlerOp),
      (runHandler ops (RWState.init sf.lastModified)).headers.contentEncoding.getD ""
        = contentEncodingGzip →
      gzipDecompress (runHandler ops (RWState.init sf.lastModified)).buffer = none →
      (ServeHTTP sf ops).sink.body = [] := by
  intro sf ops h hgz
  rw [serveHTTP_of_gzip_fail sf ops h hgz]
  exact (inv_capture sf ops).2.1

/-- Witness for C8: an invalid gzip body yields an empty wire body. -/
theorem C8_gzip_failure_aborts_witness :
    (ServeHTTP fooBarSub
      [.setContentEncoding "gzip", .write "junk".toList]).sink.body = [] :=
  C8_gzip_failure_aborts fooBarSub
    [.setContentEncoding "gzip", .write "junk".toList] (by decide) (by decide)

/-- C9: hijacking on a sink without the capability fails with an error
naming the concrete sink type and yields no connection; on a capable
sink the call is forwarded unchanged. -/
theorem C9_hijack :
    ∀ w : RealSink,
      (w.hijacker = none →
        HijackM w = (none, none, some (w.typeName ++ " is not a http.Hijacker"))) ∧
      ∀ res, w.hijacker = some res → HijackM w = res := by
  intro w
  constructor
  · intro h
    simp [HijackM, h]
  · intro res h
    simp [HijackM, h]

/-- Witness for C9 on both kinds of sinks. -/
theorem C9_hijack_witness :
    HijackM ⟨"*httptest.ResponseRecorder", none⟩ =
      (none, none, some "*httptest.ResponseRecorder is not a http.Hijacker") ∧
    HijackM ⟨"*http.response", some (some 7, some 8, none)⟩ = (some 7, some 8, none) :=
  ⟨(C9_hijack ⟨"*httptest.ResponseRecorder", none⟩).1 rfl,
   (C9_hijack ⟨"*http.response", some (some 7, some 8, none)⟩).2 (some 7, some 8, none) rfl⟩

/-- C10: the capturing writer's `Write` is total: it appends the bytes
to the capture buffer and returns `(len p, nil)`, never surfacing a
real-sink failure (the wrapped header write has no error channel). -/
theorem C10_write_total :
    ∀ (s : RWState) (p : List Char),
      (WriteM s p).2 = (p.length, none) ∧
      (WriteM s p).1.buffer = s.buffer ++ p := by
  intro s p
  refine ⟨rfl, ?_⟩
  unfold WriteM
  by_cases hw : s.wroteHeader = true
  · rw [if_pos hw]
  · rw [if_neg hw]
    rfl

end Subfilter
